import Mathlib

/-!
# Verification of the hasp install-transaction engine

A shallow embedding, in Lean, of the parts of the `hasp` repository that the
verified properties talk about:

* the 64-bit directory hash and its hex serialisation
  (`hasp-metadata/src/directory_hash.rs`),
* the catalog data model and the SQL statements the pipeline runs against it
  (`hasp/src/models/directory.rs`, `hasp/src/fetch_install/states/installer.rs`),
* the file-hashing helper (`hasp/src/fetch_install/states/helpers.rs`),
* the install pipeline's guard, rollback, journal events, and the
  lock/transaction ordering of its stages
  (`hasp/src/fetch_install/states/{matcher,fetcher,installer}.rs`,
  `hasp/src/home.rs`).

Rust `u64` values are modelled as `Nat` (with explicit `< 2 ^ 64` bounds where
they matter), SQLite rows as structures in Lean lists, and each catalog
transaction as a single atomic function on the catalog state.
-/

namespace Hasp

/-! ## Directory hash (`hasp-metadata/src/directory_hash.rs`)

`DirectoryHash` wraps a `u64`; we work directly with the numeric value.
-/

/-- `DirectoryHash::WIDTH`: the width of the hex representation,
`size_of::<u64>() * 2 = 16`. -/
def WIDTH : Nat := 16

/-- One lowercase hex digit, as produced by Rust's `{:x}` formatting:
`0`–`9` for values below ten, `a`–`f` above. -/
def hexDigitChar (m : Nat) : Char :=
  if m < 10 then Char.ofNat (48 + m) else Char.ofNat (97 + (m - 10))

/-- The `k` low hex digits of `n`, most significant first (big-endian), as
printed by `write!(f, "{:0width$x}", ...)` with zero padding to width `k`. -/
def hexDigitsAux : Nat → Nat → List Char
  | 0, _ => []
  | k + 1, n => hexDigitsAux k (n / 16) ++ [hexDigitChar (n % 16)]

/-- `DirectoryHash::fmt` (the `Display` impl): print the numeric value as
lowercase hex, zero-padded to `WIDTH = 16` characters. -/
def DirectoryHash.fmt (numeric : Nat) : String :=
  ⟨hexDigitsAux WIDTH numeric⟩

/-- The character test in `DirectoryHash::from_str`:
`c.is_ascii_digit() || matches!(c, 'a'..='f')`. -/
def isAllowedHexChar (c : Char) : Bool :=
  c.isDigit || (decide ('a' ≤ c) && decide (c ≤ 'f'))

/-- The numeric value `u64::from_str_radix` assigns to a single hex digit
(for characters that pass `isAllowedHexChar`). -/
def hexCharVal (c : Char) : Nat :=
  if c.isDigit then c.toNat - 48 else c.toNat - 87

/-- `u64::from_str_radix(s, 16)` on a string of hex digits: big-endian fold. -/
def fromStrRadix16 (s : List Char) : Nat :=
  s.foldl (fun a c => a * 16 + hexCharVal c) 0

/-- The error type of `DirectoryHash::from_str` (`ParseDirectoryHashError`
carries the input and a message; we keep just the message kind). -/
inductive ParseDirectoryHashError where
  | wrongLength (len : Nat)
  | badChar
deriving DecidableEq, Repr

/-- `DirectoryHash::from_str`: reject any input whose length is not `WIDTH`;
reject any input with a character outside `[0-9a-f]`; otherwise parse with
`u64::from_str_radix(s, 16)`. -/
def DirectoryHash.fromStr (s : String) : Except ParseDirectoryHashError Nat :=
  if s.length ≠ WIDTH then
    .error (.wrongLength s.length)
  else if ¬ (s.data.all isAllowedHexChar) then
    .error .badChar
  else
    .ok (fromStrRadix16 s.data)

lemma hexDigitsAux_length (k n : Nat) : (hexDigitsAux k n).length = k := by
  induction k generalizing n with
  | zero => rfl
  | succ k ih => simp [hexDigitsAux, ih]

lemma isAllowedHexChar_hexDigitChar : ∀ m, m < 16 → isAllowedHexChar (hexDigitChar m) = true := by
  decide

lemma hexCharVal_hexDigitChar : ∀ m, m < 16 → hexCharVal (hexDigitChar m) = m := by
  decide

lemma hexDigitsAux_all_allowed (k n : Nat) :
    (hexDigitsAux k n).all isAllowedHexChar = true := by
  induction k generalizing n with
  | zero => rfl
  | succ k ih =>
    simp only [hexDigitsAux, List.all_append, List.all_cons, List.all_nil, Bool.and_eq_true]
    exact ⟨ih _, isAllowedHexChar_hexDigitChar _ (Nat.mod_lt _ (by norm_num)), trivial⟩

/-- The hex-digit decomposition of `n % 16 ^ (k + 1)`. -/
lemma mod_pow_succ_digit (n k : Nat) :
    n % 16 ^ (k + 1) = (n / 16 % 16 ^ k) * 16 + n % 16 := by
  have h16 : (0:Nat) < 16 := by norm_num
  have hq := Nat.div_add_mod n 16
  have hq2 := Nat.div_add_mod (n / 16) (16 ^ k)
  have hlt : (n / 16 % 16 ^ k) * 16 + n % 16 < 16 ^ (k + 1) := by
    have h1 : n / 16 % 16 ^ k < 16 ^ k := Nat.mod_lt _ (Nat.pos_pow_of_pos _ h16)
    have h2 : n % 16 < 16 := Nat.mod_lt _ h16
    calc (n / 16 % 16 ^ k) * 16 + n % 16
        ≤ (16 ^ k - 1) * 16 + n % 16 := by
          have := Nat.le_pred_of_lt h1
          omega
      _ < 16 ^ (k + 1) := by
          have hk : (1:Nat) ≤ 16 ^ k := Nat.one_le_pow _ _ h16
          have : (16 ^ k - 1) * 16 + 16 = 16 ^ k * 16 := by
            cases Nat.exists_eq_add_of_le hk with
            | intro m hm => rw [hm]; ring_nf; omega
          have hpow : 16 ^ (k + 1) = 16 ^ k * 16 := pow_succ 16 k
          omega
  have hdecomp : n = 16 ^ (k + 1) * (n / 16 / 16 ^ k) + ((n / 16 % 16 ^ k) * 16 + n % 16) := by
    have hpow : 16 ^ (k + 1) = 16 ^ k * 16 := pow_succ 16 k
    calc n = 16 * (n / 16) + n % 16 := by omega
      _ = 16 * (16 ^ k * (n / 16 / 16 ^ k) + n / 16 % 16 ^ k) + n % 16 := by rw [hq2]
      _ = 16 ^ (k + 1) * (n / 16 / 16 ^ k) + ((n / 16 % 16 ^ k) * 16 + n % 16) := by
          rw [hpow]; ring
  calc n % 16 ^ (k + 1)
      = (16 ^ (k + 1) * (n / 16 / 16 ^ k) + ((n / 16 % 16 ^ k) * 16 + n % 16)) % 16 ^ (k + 1) := by
        rw [← hdecomp]
    _ = ((n / 16 % 16 ^ k) * 16 + n % 16) % 16 ^ (k + 1) := by
        rw [Nat.mul_add_mod]
    _ = (n / 16 % 16 ^ k) * 16 + n % 16 := Nat.mod_eq_of_lt hlt

/-- Folding the parser over the printed digits recovers `n % 16 ^ k` (on top of
whatever accumulator is already present). -/
lemma foldl_hexDigitsAux (k : Nat) : ∀ (n a : Nat),
    (hexDigitsAux k n).foldl (fun a c => a * 16 + hexCharVal c) a = a * 16 ^ k + n % 16 ^ k := by
  induction k with
  | zero => intro n a; simp [hexDigitsAux, Nat.mod_one]
  | succ k ih =>
    intro n a
    have hm : n % 16 < 16 := Nat.mod_lt _ (by norm_num)
    simp only [hexDigitsAux, List.foldl_append, List.foldl_cons, List.foldl_nil]
    rw [ih (n / 16) a, hexCharVal_hexDigitChar _ hm, mod_pow_succ_digit]
    have hpow : 16 ^ (k + 1) = 16 ^ k * 16 := pow_succ 16 k
    rw [hpow]; ring

lemma fromStrRadix16_hexDigitsAux (n : Nat) :
    fromStrRadix16 (hexDigitsAux WIDTH n) = n % 16 ^ WIDTH := by
  unfold fromStrRadix16
  rw [foldl_hexDigitsAux]
  simp

lemma fmt_length (n : Nat) : (DirectoryHash.fmt n).length = 16 := by
  show (hexDigitsAux WIDTH n).length = 16
  exact hexDigitsAux_length _ _

lemma fmt_data (n : Nat) : (DirectoryHash.fmt n).data = hexDigitsAux WIDTH n := rfl

lemma fromStr_ok_iff (s : String) :
    (∃ m, DirectoryHash.fromStr s = .ok m) ↔
      (s.length = 16 ∧ s.data.all isAllowedHexChar = true) := by
  unfold DirectoryHash.fromStr
  by_cases hlen : s.length = WIDTH
  · by_cases hall : s.data.all isAllowedHexChar = true
    · simp [hlen, hall, WIDTH]
    · simp [hlen, hall, WIDTH]
  · simp only [WIDTH] at hlen
    simp [hlen, WIDTH]

/-- C9: for every 64-bit integer `n`, formatting the directory hash yields
exactly 16 characters, all lowercase hex digits (zero-padded, most significant
digit first), parsing that string yields `n` back, and parsing accepts exactly
the strings of 16 characters in `[0-9a-f]`, rejecting every other string with
an error. -/
theorem c9_directory_hash_round_trip (n : Nat) (h : n < 2 ^ 64) :
    (DirectoryHash.fmt n).length = 16 ∧
    (DirectoryHash.fmt n).data.all isAllowedHexChar = true ∧
    DirectoryHash.fromStr (DirectoryHash.fmt n) = .ok n ∧
    ∀ s : String, (∃ m, DirectoryHash.fromStr s = .ok m) ↔
      (s.length = 16 ∧ s.data.all isAllowedHexChar = true) := by
  have hall : (DirectoryHash.fmt n).data.all isAllowedHexChar = true := by
    rw [fmt_data]; exact hexDigitsAux_all_allowed _ _
  refine ⟨fmt_length n, hall, ?_, fromStr_ok_iff⟩
  simp only [DirectoryHash.fromStr, fmt_length, WIDTH, ne_eq, not_true_eq_false,
    not_false_eq_true, if_false, hall, if_true]
  rw [fmt_data, fromStrRadix16_hexDigitsAux]
  congr 1
  have hpow : (16:Nat) ^ WIDTH = 2 ^ 64 := by norm_num [WIDTH]
  rw [hpow, Nat.mod_eq_of_lt h]

/-- `c9_directory_hash_round_trip` applied at `n = 19088743`. -/
theorem c9_directory_hash_round_trip_witness :
    19088743 < 2 ^ 64 ∧
      DirectoryHash.fromStr (DirectoryHash.fmt 19088743) = .ok 19088743 :=
  ⟨by norm_num, (c9_directory_hash_round_trip 19088743 (by norm_num)).2.2.1⟩

/-! ## File hashing (`hash_file`, `hasp/src/fetch_install/states/helpers.rs`)

`hash_file` opens the file, allocates `buf = Vec::with_capacity(64 * 1024 *
1024)` — a vector whose *length* is 0 (`with_capacity` sets only the
capacity) — and loops calling `file.read(&mut buf)`, breaking when a read
returns 0 and otherwise feeding the bytes read into a blake3 hasher; at the
end it returns `FileHash::Blake3(hasher.finalize())`.  The file is modelled
as its byte content and the hasher by the list of bytes fed to it (the blake3
compression itself is an external primitive; which bytes reach it is what the
stored hash is determined by). -/

/-- The length of the read buffer in `hash_file`:
`Vec::with_capacity(64 * 1024 * 1024)` produces a vector of length 0 (only
the capacity is 64 MiB), and nothing in the function ever grows it. -/
def hashFileBufLen : Nat := 0

/-- The read loop of `hash_file`: each `file.read(&mut buf)` reads
`min buf.len() remaining` bytes; `read_len == 0` breaks the loop, otherwise
`hasher.update(&buf[..read_len])` feeds those bytes.  Returns the bytes fed
across the whole loop. -/
def hashFileLoop (bufLen : Nat) (remaining fed : List Nat) : List Nat :=
  if h : min bufLen remaining.length = 0 then fed
  else
    hashFileLoop bufLen (remaining.drop (min bufLen remaining.length))
      (fed ++ remaining.take (min bufLen remaining.length))
termination_by remaining.length
decreasing_by simp only [List.length_drop]; omega

/-- `hash_file`, abstracted to the byte stream it hashes: the list of bytes
fed to the blake3 hasher before `finalize`. -/
def hash_file_fed (content : List Nat) : List Nat :=
  hashFileLoop hashFileBufLen content []

/-- Modelled from the spec: "For each installed file, hash the on-disk
content" / "its content hashes to `hash`" — the hasher is fed exactly the
file's bytes. -/
def hashFileFedSpec (content : List Nat) : List Nat := content

/-- C2 fails on the code: because `Vec::with_capacity` yields a zero-length
buffer, every `read` call returns 0 immediately and the loop feeds no bytes
to the hasher, so `hash_file` stores the blake3 digest of the empty byte
string for every file.  At the failing input (a file whose content is the
single byte `1`) the hashed stream is `[]`, not the file's content. -/
theorem c2_hash_file_hashes_nothing :
    (∀ content : List Nat, hash_file_fed content = []) ∧
    hash_file_fed [1] ≠ hashFileFedSpec [1] := by
  have hz : ∀ content : List Nat, hash_file_fed content = [] := by
    intro content
    unfold hash_file_fed hashFileLoop
    simp [hashFileBufLen]
  exact ⟨hz, by rw [hz]; decide⟩

/-! ## Install guard, rollback, and the journal
(`InstallGuard` in `hasp/src/fetch_install/states/installer.rs`) -/

/-- `FailureReason` (from `hasp-metadata`): variants `ProcessFailed` and
`Aborted`, each carrying JSON metadata (here the serialised reason string,
as produced by `serde_json::to_value(format!(...))`). -/
inductive FailureReason where
  | processFailed (metadata : String)
  | aborted (metadata : String)
deriving DecidableEq, Repr

/-- The journal events the installer emits (`install_started`,
`install_success`, `install_failed`), restricted to the payload fields these
proofs depend on. -/
inductive JournalEvent where
  | installStarted (force : Bool)
  | installSuccess
  | installFailed (reason : FailureReason)
deriving DecidableEq, Repr

/-- The state of an `InstallGuard` that finish/rollback read and write: the
`finished` flag and the journal events this guard has emitted. -/
structure GuardState where
  finished : Bool
  journal : List JournalEvent
deriving DecidableEq, Repr

/-- `InstallGuard::new`: logs `install_started` carrying its `force`
argument; the guard starts with `finished = false`. -/
def installGuardNew (force : Bool) : GuardState :=
  ⟨false, [.installStarted force]⟩

/-- `InstallGuard::rollback`: `if self.finished { return Ok(()) }`, else set
`finished = true` first and log one `install_failed` event with the given
reason. -/
def rollback (reason : FailureReason) (g : GuardState) : GuardState :=
  if g.finished then g
  else ⟨true, g.journal ++ [.installFailed reason]⟩

/-- The guard-state effect of `InstallGuard::finish`:
`if self.finished { return Ok(()) }`, else (after the commit) set
`finished = true` and log `install_success`. -/
def finishGuard (g : GuardState) : GuardState :=
  if g.finished then g
  else ⟨true, g.journal ++ [.installSuccess]⟩

/-- `TRANSACTION_DROPPED` in `installer.rs`: the static metadata string used
by the `Drop` impl. -/
def TRANSACTION_DROPPED : String := "transaction dropped, likely due to a panic or Ctrl-C"

/-- `impl Drop for InstallGuard`: rollback with `FailureReason::Aborted`
whose metadata is `TRANSACTION_DROPPED` (errors ignored). -/
def installGuardDrop (g : GuardState) : GuardState :=
  rollback (.aborted TRANSACTION_DROPPED) g

/-- C7 is false of the code: dropping an unfinished guard does roll back with
`FailureReason::Aborted` and the static `TRANSACTION_DROPPED` string, but
that string is "transaction dropped, likely due to a panic or Ctrl-C", not
"transaction dropped, likely due to a panic or signal". -/
theorem c7_counterexample :
    (installGuardDrop (installGuardNew true)).journal =
      [.installStarted true, .installFailed (.aborted TRANSACTION_DROPPED)] ∧
    TRANSACTION_DROPPED ≠ "transaction dropped, likely due to a panic or signal" := by
  exact ⟨rfl, by decide⟩

/-- C7 amended: when the guard is dropped without an explicit finish,
rollback runs with `FailureReason::Aborted` whose metadata is exactly the
static reason string "transaction dropped, likely due to a panic or
Ctrl-C". -/
theorem c7_drop_reason (g : GuardState) (h : g.finished = false) :
    installGuardDrop g =
      ⟨true, g.journal ++
        [.installFailed
          (.aborted "transaction dropped, likely due to a panic or Ctrl-C")]⟩ := by
  unfold installGuardDrop rollback TRANSACTION_DROPPED
  rw [h]
  simp

/-- `c7_drop_reason` applied to a freshly created guard. -/
theorem c7_drop_reason_witness :
    (installGuardNew true).finished = false ∧
      installGuardDrop (installGuardNew true) =
        ⟨true, (installGuardNew true).journal ++
          [.installFailed
            (.aborted "transaction dropped, likely due to a panic or Ctrl-C")]⟩ :=
  ⟨rfl, c7_drop_reason _ rfl⟩

/-- Operations callable on a guard after creation. -/
inductive GuardOp where
  | rollbackOp (reason : FailureReason)
  | finishOp
deriving DecidableEq, Repr

def applyGuardOp (g : GuardState) : GuardOp → GuardState
  | .rollbackOp r => rollback r g
  | .finishOp => finishGuard g

def applyGuardOps (g : GuardState) (ops : List GuardOp) : GuardState :=
  ops.foldl applyGuardOp g

def countInstallFailed (j : List JournalEvent) : Nat :=
  j.countP fun e => match e with | .installFailed _ => true | _ => false

lemma countInstallFailed_append (j j' : List JournalEvent) :
    countInstallFailed (j ++ j') = countInstallFailed j + countInstallFailed j' :=
  List.countP_append _ _ _

lemma guardOps_at_most_one_failed (ops : List GuardOp) :
    ∀ g : GuardState,
      (g.finished = false → countInstallFailed g.journal = 0) →
      countInstallFailed g.journal ≤ 1 →
      countInstallFailed (applyGuardOps g ops).journal ≤ 1 := by
  induction ops with
  | nil => intro g _ h1; exact h1
  | cons op ops ih =>
    intro g h0 h1
    show countInstallFailed (applyGuardOps (applyGuardOp g op) ops).journal ≤ 1
    cases op with
    | rollbackOp r =>
      by_cases hf : g.finished
      · exact ih _ (by simp [applyGuardOp, rollback, hf, h0]) (by simpa [applyGuardOp, rollback, hf])
      · have happ : applyGuardOp g (.rollbackOp r) =
            ⟨true, g.journal ++ [.installFailed r]⟩ := by
          simp [applyGuardOp, rollback, hf]
        have hzero : countInstallFailed g.journal = 0 := h0 (by simpa using hf)
        refine ih _ ?_ ?_
        · rw [happ]; intro hcontra; simp at hcontra
        · rw [happ]
          show countInstallFailed (g.journal ++ [.installFailed r]) ≤ 1
          rw [countInstallFailed_append, hzero]
          have hone : countInstallFailed [JournalEvent.installFailed r] = 1 := by
            simp [countInstallFailed, List.countP, List.countP.go]
          omega
    | finishOp =>
      by_cases hf : g.finished
      · exact ih _ (by simp [applyGuardOp, finishGuard, hf, h0]) (by simpa [applyGuardOp, finishGuard, hf])
      · have happ : applyGuardOp g .finishOp =
            ⟨true, g.journal ++ [.installSuccess]⟩ := by
          simp [applyGuardOp, finishGuard, hf]
        refine ih _ ?_ ?_
        · rw [happ]; intro hcontra; simp at hcontra
        · rw [happ]
          show countInstallFailed (g.journal ++ [.installSuccess]) ≤ 1
          rw [countInstallFailed_append]
          have hzerol : countInstallFailed [JournalEvent.installSuccess] = 0 := by
            simp [countInstallFailed, List.countP, List.countP.go]
          omega

/-- C8: rollback is idempotent — rolling back a guard that has already been
rolled back (with any reason) or finished is a no-op with identical state and
journal; and from a fresh guard, any sequence of rollback / finish calls
emits at most one `install_failed` event. -/
theorem c8_rollback_idempotent :
    (∀ (g : GuardState) (r r' : FailureReason),
      rollback r' (rollback r g) = rollback r g) ∧
    (∀ (g : GuardState) (r : FailureReason),
      rollback r (finishGuard g) = finishGuard g) ∧
    (∀ (force : Bool) (ops : List GuardOp),
      countInstallFailed (applyGuardOps (installGuardNew force) ops).journal ≤ 1) := by
  refine ⟨?_, ?_, ?_⟩
  · intro g r r'
    by_cases hf : g.finished <;> simp [rollback, hf]
  · intro g r
    by_cases hf : g.finished <;> simp [rollback, finishGuard, hf]
  · intro force ops
    refine guardOps_at_most_one_failed ops (installGuardNew force) ?_ ?_
    · intro
      simp [installGuardNew, countInstallFailed]
    · simp [installGuardNew, countInstallFailed]

/-- `c8_rollback_idempotent` applied to a fresh guard and two concrete
reasons. -/
theorem c8_rollback_idempotent_witness :
    rollback (.aborted "b") (rollback (.processFailed "a") (installGuardNew true)) =
      rollback (.processFailed "a") (installGuardNew true) :=
  c8_rollback_idempotent.1 (installGuardNew true) (.processFailed "a") (.aborted "b")

/-! ## Catalog data model (`hasp/src/models/directory.rs` and the SQL run by
`hasp/src/fetch_install/states/installer.rs`)

The `packages` database holds three tables: `directories`, `installed`, and
`installed_files`.  Rows are modelled as structures, tables as lists (in
insertion order, matching SQLite's behaviour for these append-only tables),
and every catalog transaction as one atomic function on the whole state. -/

/-- One row of `packages.directories`: columns `directory_id, namespace, name,
hash, version, metadata, installed` (see `ExclusiveRoot::insert_new` and
`DirectoryRow::from_row`).  The JSON `metadata` payload is kept opaque as a
string, and the version in its textual serialisation. -/
structure DirectoryRow where
  directory_id : Nat
  nspace : String
  name : String
  hash : Nat
  version : String
  metadata : String
  installed : Bool
deriving DecidableEq, Repr

/-- One row of `packages.installed`: columns `install_id, directory_id,
install_time, metadata` (see the INSERT in `InstallGuard::finish`). -/
structure InstallRow where
  install_id : Nat
  directory_id : Nat
  install_time : Nat
  metadata : String
deriving DecidableEq, Repr

/-- One row of `packages.installed_files`: columns `install_id, name, hash,
metadata, is_binary` (see the INSERT loop in `InstallGuard::finish`).  The
stored hash is the tagged file hash; its bytes are kept abstract as `Nat`s. -/
structure InstalledFileRow where
  install_id : Nat
  name : String
  hash : List Nat
  metadata : String
  is_binary : Bool
deriving DecidableEq, Repr

/-- The `packages` catalog database state. -/
structure Catalog where
  directories : List DirectoryRow
  installed : List InstallRow
  installed_files : List InstalledFileRow
deriving DecidableEq, Repr

def Catalog.empty : Catalog := ⟨[], [], []⟩

/-- `ExclusiveRoot::<InitContext>::insert_new`:
`INSERT INTO packages.directories (namespace, name, hash, version, metadata,
installed) VALUES (..., :installed)` with `":installed": false`.
This is the whole write content of the transaction opened in
`PackageInstaller::new` on the no-existing-row path. -/
def insert_new (directory_id : Nat) (nspace name : String) (hash : Nat)
    (version metadata : String) (c : Catalog) : Catalog :=
  { c with directories :=
      c.directories ++ [⟨directory_id, nspace, name, hash, version, metadata, false⟩] }

/-- `DirectoryRow::set_installed`:
`UPDATE packages.directories SET installed = ?1 WHERE directory_id = ?2`. -/
def set_installed (directory_id : Nat) (b : Bool) (c : Catalog) : Catalog :=
  { c with directories :=
      c.directories.map fun d =>
        if d.directory_id = directory_id then { d with installed := b } else d }

/-- The `INSERT INTO packages.installed ... RETURNING install_id` statement in
`InstallGuard::finish` (the fresh `install_id` SQLite assigns is passed in). -/
def insert_install (install_id directory_id install_time : Nat) (metadata : String)
    (c : Catalog) : Catalog :=
  { c with installed :=
      c.installed ++ [⟨install_id, directory_id, install_time, metadata⟩] }

/-- One iteration of the `INSERT INTO packages.installed_files ...` loop in
`InstallGuard::finish`. -/
def insert_installed_file (install_id : Nat) (name : String) (hash : List Nat)
    (metadata : String) (is_binary : Bool) (c : Catalog) : Catalog :=
  { c with installed_files :=
      c.installed_files ++ [⟨install_id, name, hash, metadata, is_binary⟩] }

/-- The catalog transaction committed by `InstallGuard::finish`, in source
order: insert the `Install` row, `set_installed true` on the directory row,
insert one `installed_files` row per installed file, then `txn.commit()`. -/
def finishTxn (install_id directory_id install_time : Nat) (metadata : String)
    (files : List (String × List Nat × String × Bool)) (c : Catalog) : Catalog :=
  files.foldl
    (fun acc f => insert_installed_file install_id f.1 f.2.1 f.2.2.1 f.2.2.2 acc)
    (set_installed directory_id true
      (insert_install install_id directory_id install_time metadata c))

/-- The committed catalog transactions the pipeline can run, at transaction
granularity: the insert in `PackageInstaller::new` and the commit in
`InstallGuard::finish`.  (`PackageInstaller::install`'s `get_installed` and the
Matcher's queries are read-only; `InstallGuard::rollback` performs no catalog
writes.) -/
inductive CatalogStep : Catalog → Catalog → Prop
  | insert_new (directory_id : Nat) (nspace name : String) (hash : Nat)
      (version metadata : String) (c : Catalog) :
      CatalogStep c (insert_new directory_id nspace name hash version metadata c)
  | finish (install_id directory_id install_time : Nat) (metadata : String)
      (files : List (String × List Nat × String × Bool)) (c : Catalog) :
      CatalogStep c (finishTxn install_id directory_id install_time metadata files c)

/-- Every directory row with `installed = true` has an `Install` row. -/
def InstalledImpliesInstallRow (c : Catalog) : Prop :=
  ∀ d ∈ c.directories, d.installed = true →
    ∃ i ∈ c.installed, i.directory_id = d.directory_id

lemma files_foldl_directories (install_id : Nat)
    (files : List (String × List Nat × String × Bool)) (acc : Catalog) :
    (files.foldl
      (fun acc f => insert_installed_file install_id f.1 f.2.1 f.2.2.1 f.2.2.2 acc)
      acc).directories = acc.directories := by
  induction files generalizing acc with
  | nil => rfl
  | cons f fs ih => rw [List.foldl_cons, ih]; rfl

lemma files_foldl_installed (install_id : Nat)
    (files : List (String × List Nat × String × Bool)) (acc : Catalog) :
    (files.foldl
      (fun acc f => insert_installed_file install_id f.1 f.2.1 f.2.2.1 f.2.2.2 acc)
      acc).installed = acc.installed := by
  induction files generalizing acc with
  | nil => rfl
  | cons f fs ih => rw [List.foldl_cons, ih]; rfl

lemma catalogStep_preserves {c c' : Catalog} (h : CatalogStep c c')
    (hc : InstalledImpliesInstallRow c) : InstalledImpliesInstallRow c' := by
  cases h with
  | insert_new did ns nm hs v m c =>
    intro d hd hinst
    simp only [Hasp.insert_new, List.mem_append, List.mem_singleton] at hd
    cases hd with
    | inl hmem => exact hc d hmem hinst
    | inr heq => rw [heq] at hinst; simp at hinst
  | finish iid did itime m files c =>
    intro d hd hinst
    rw [finishTxn, files_foldl_directories] at hd
    simp only [set_installed, insert_install, List.mem_map] at hd
    obtain ⟨d0, hd0, hfd⟩ := hd
    rw [finishTxn, files_foldl_installed]
    simp only [set_installed, insert_install, List.mem_append, List.mem_singleton]
    by_cases hid : d0.directory_id = did
    · refine ⟨⟨iid, did, itime, m⟩, Or.inr rfl, ?_⟩
      rw [← hfd]
      simp [hid]
    · rw [if_neg hid] at hfd
      rw [← hfd] at hinst ⊢
      obtain ⟨i, hi, hieq⟩ := hc d0 hd0 hinst
      exact ⟨i, Or.inl hi, hieq⟩

/-- C1: every `Directory` row is inserted with `installed = false`
(`insert_new` appends exactly such a row), and the only transaction that sets
`installed = true` — `InstallGuard::finish` — inserts the `Install` row in the
same transaction; hence in every catalog state reachable through committed
pipeline transactions, a directory row with `installed = true` always has an
`Install` row. -/
theorem c1_commit_atomicity :
    (∀ (did : Nat) (ns nm : String) (hs : Nat) (v m : String) (c : Catalog),
      (insert_new did ns nm hs v m c).directories =
        c.directories ++ [⟨did, ns, nm, hs, v, m, false⟩]) ∧
    (∀ c : Catalog, Relation.ReflTransGen CatalogStep Catalog.empty c →
      InstalledImpliesInstallRow c) := by
  constructor
  · intro did ns nm hs v m c
    rfl
  · intro c h
    induction h with
    | refl => intro d hd; simp [Catalog.empty] at hd
    | tail _ hstep ih => exact catalogStep_preserves hstep ih

/-- A reachable catalog with one committed install, built by applying
`c1_commit_atomicity` to an explicit two-step derivation. -/
theorem c1_commit_atomicity_witness :
    InstalledImpliesInstallRow
      (finishTxn 1 1 100 "im" [("bin/rg", [1, 2], "fm", true)]
        (insert_new 1 "cargo" "ripgrep" 7 "sem:13.0.0" "dm" Catalog.empty)) :=
  c1_commit_atomicity.2 _
    (Relation.ReflTransGen.tail
      (Relation.ReflTransGen.single
        (CatalogStep.insert_new 1 "cargo" "ripgrep" 7 "sem:13.0.0" "dm" Catalog.empty))
      (CatalogStep.finish 1 1 100 "im" [("bin/rg", [1, 2], "fm", true)] _))

/-! ## MatchInstalled (`InstalledRow::all_matches_for_impl`,
`hasp/src/models/directory.rs`) -/

/-- `InstalledRow::all_matches_for_impl`:
`SELECT ... FROM packages.directories INNER JOIN packages.installed USING
(directory_id) WHERE namespace == :namespace AND name == :name`.
Note: the statement has no condition on the `installed` column. -/
def all_matches_for_impl (nspace name : String) (c : Catalog) :
    List (DirectoryRow × InstallRow) :=
  (c.directories.filter fun d => d.nspace == nspace && d.name == name).flatMap
    fun d =>
      (c.installed.filter fun i => i.directory_id == d.directory_id).map fun i => (d, i)

/-- Modelled from the spec: "**MatchInstalled**(namespace, name): returns
Directory ⋈ Install rows where `installed = true`" — the same join with the
`installed = true` restriction the spec describes. -/
def matchInstalledSpec (nspace name : String) (c : Catalog) :
    List (DirectoryRow × InstallRow) :=
  (c.directories.filter fun d => d.nspace == nspace && d.name == name && d.installed).flatMap
    fun d =>
      (c.installed.filter fun i => i.directory_id == d.directory_id).map fun i => (d, i)

/-- A catalog holding one directory row with `installed = false` that
nevertheless has an `Install` row. -/
def c5Catalog : Catalog :=
  ⟨[⟨1, "cargo", "ripgrep", 7, "sem:13.0.0", "dm", false⟩], [⟨1, 1, 100, "im"⟩], []⟩

/-- C5 is false of the code: on `c5Catalog` the query returns the join row even
though its directory has `installed = false`, so the result is neither the
spec's restricted join nor free of `installed = false` rows. -/
theorem c5_counterexample :
    ¬ (all_matches_for_impl "cargo" "ripgrep" c5Catalog =
        matchInstalledSpec "cargo" "ripgrep" c5Catalog ∧
      ∀ p ∈ all_matches_for_impl "cargo" "ripgrep" c5Catalog, p.1.installed = true) := by
  decide

/-- C5 amended: `MatchInstalled(namespace, name)` returns exactly the join of
`Directory` and `Install` rows for that namespace and name, with no
restriction on the `installed` flag — a row with `installed = false` appears
in the result whenever it has an `Install` row. -/
theorem c5_match_installed_join (nspace name : String) (c : Catalog)
    (p : DirectoryRow × InstallRow) :
    p ∈ all_matches_for_impl nspace name c ↔
      (p.1 ∈ c.directories ∧ p.2 ∈ c.installed ∧ p.1.nspace = nspace ∧
        p.1.name = name ∧ p.2.directory_id = p.1.directory_id) := by
  unfold all_matches_for_impl
  simp only [List.mem_flatMap, List.mem_filter, List.mem_map, Bool.and_eq_true, beq_iff_eq]
  constructor
  · rintro ⟨d, ⟨hd, hns, hnm⟩, i, ⟨hi, hid⟩, heq⟩
    rw [← heq]
    exact ⟨hd, hi, hns, hnm, hid⟩
  · rintro ⟨hd, hi, hns, hnm, hid⟩
    exact ⟨p.1, ⟨hd, hns, hnm⟩, p.2, ⟨hi, hid⟩, rfl⟩

/-- `c5_match_installed_join` at a concrete catalog: the committed row is in
the query result. -/
theorem c5_match_installed_join_witness :
    (⟨1, "cargo", "ripgrep", 7, "sem:13.0.0", "dm", true⟩, ⟨1, 1, 100, "im"⟩) ∈
      all_matches_for_impl "cargo" "ripgrep"
        ⟨[⟨1, "cargo", "ripgrep", 7, "sem:13.0.0", "dm", true⟩], [⟨1, 1, 100, "im"⟩], []⟩ :=
  (c5_match_installed_join "cargo" "ripgrep" _ _).mpr
    ⟨by decide, by decide, rfl, rfl, rfl⟩

/-! ## `PackageInstaller::install` (`installer.rs`) -/

/-- `DirectoryRow::get_installed`: `SELECT installed FROM packages.directories
WHERE directory_id = ?1`. -/
def get_installed (directory_id : Nat) (c : Catalog) : Option Bool :=
  (c.directories.find? fun d => d.directory_id == directory_id).map (·.installed)

/-- `InstallStatus`: the user-visible per-install status. -/
inductive InstallOutcome where
  | success
  | failure (err : String)
  | alreadyInstalled
deriving DecidableEq, Repr

/-- `PackageInstaller::install(force)` driving `install_and_finish`, as a
function of the branch conditions the environment decides: whether the row
is currently installed, whether the external build tool succeeds (`buildOk`;
a build failure is `InstallError::Fail`), whether the staging renames in
`InstallGuard::install` succeed (`renameOk`; failure is
`InstallError::Abort`), and whether the commit inside `finish` succeeds
(`commitOk`; failure is wrapped into `InstallError::Abort`).  Returns the
`Result<InstallStatus>` and the journal events emitted by the guard.
Note `lock.start_install(true)`: the guard is constructed with `force`
hardcoded to `true`, whatever the caller passed. -/
def packageInstallerInstall (force installed buildOk renameOk commitOk : Bool)
    (buildErr renameErr commitErr : String) :
    Except String InstallOutcome × List JournalEvent :=
  if installed && !force then (.ok .alreadyInstalled, [])
  else
    let g0 := installGuardNew true
    if !buildOk then
      (.ok (.failure buildErr), (rollback (.processFailed buildErr) g0).journal)
    else if !renameOk then
      (.error renameErr, (rollback (.aborted renameErr) g0).journal)
    else if !commitOk then
      (.error commitErr, (rollback (.aborted commitErr) g0).journal)
    else
      (.ok .success, (finishGuard g0).journal)

/-- The `force` payloads of the `install_started` events in a journal. -/
def startedForces (j : List JournalEvent) : List Bool :=
  j.filterMap fun e => match e with | .installStarted f => some f | _ => none

/-- C10: whenever the install proceeds past the already-installed check
(that is, unless `installed && !force`), exactly one `install_started` event
is emitted and it records `force = true` regardless of the `force` argument
the caller passed to `PackageInstaller::install`, because the guard is
started with `force` hardcoded to `true`. -/
theorem c10_install_started_force_true
    (force installed buildOk renameOk commitOk : Bool)
    (buildErr renameErr commitErr : String)
    (h : installed = false ∨ force = true) :
    startedForces
      (packageInstallerInstall force installed buildOk renameOk commitOk
        buildErr renameErr commitErr).2 = [true] := by
  have hcond : (installed && !force) = false := by
    cases h with
    | inl h => rw [h]; rfl
    | inr h => rw [h]; simp
  unfold packageInstallerInstall
  rw [hcond]
  cases buildOk <;> cases renameOk <;> cases commitOk <;>
    simp [startedForces, installGuardNew, rollback, finishGuard]

/-- `c10_install_started_force_true` with the caller passing `force = false`
on a not-yet-installed row. -/
theorem c10_install_started_force_true_witness :
    (false = false ∨ False) ∧
      startedForces
        (packageInstallerInstall false false true true true "be" "re" "ce").2 = [true] :=
  ⟨Or.inl rfl,
    c10_install_started_force_true false false true true true "be" "re" "ce" (Or.inl rfl)⟩

/-! ## Lock / transaction ordering (`PackageInstaller::new` and the
`install` / `finish` path) -/

/-- Resource events, in program order: opening and committing a catalog
transaction, acquiring and releasing the exclusive install-path lock, and
the directory-row insert. -/
inductive ResEvent where
  | txnBegin
  | txnCommit
  | lockAcquire
  | lockRelease
  | insertDirectoryRow
deriving DecidableEq, Repr

instance : BEq ResEvent := instBEqOfDecidableEq

/-- The resource trace of `PackageInstaller::new`: `conn.transaction()` runs
first (line "let txn = conn.transaction()?").  On the existing-row path the
transaction commits with no lock taken.  On the new-row path the exclusive
lock is then acquired (`init_context.open_lockfile()?.lock_exclusive()?`),
`insert_new` runs inside the still-open transaction, the transaction
commits ("Complete the transaction before releasing the lock"), and the
lock is released when the `ExclusiveRoot` is dropped at the end of the
match arm. -/
def packageInstallerNewTrace (matchFound : Bool) : List ResEvent :=
  if matchFound then [.txnBegin, .txnCommit]
  else [.txnBegin, .lockAcquire, .insertDirectoryRow, .txnCommit, .lockRelease]

/-- The resource trace of `PackageInstaller::install` with a successful
`InstallGuard::finish`: the exclusive lock is acquired first
(`self.open_lockfile()?.lock_exclusive()?`), the commit transaction opens
inside `finish`, commits there, and the lock is released when the guard is
dropped afterwards. -/
def installFinishTrace : List ResEvent :=
  [.lockAcquire, .txnBegin, .txnCommit, .lockRelease]

/-- Number of catalog transactions still open after the first `i` events. -/
def openTxns (t : List ResEvent) (i : Nat) : Nat :=
  (t.take i).count .txnBegin - (t.take i).count .txnCommit

/-- Does some `lockAcquire` run while a transaction is open? -/
def txnHeldAtLockAcquire (t : List ResEvent) : Bool :=
  (List.range t.length).any fun i =>
    t[i]? == some .lockAcquire && decide (0 < openTxns t i)

/-- Is every transaction committed by the time any `lockRelease` runs? -/
def commitBeforeRelease (t : List ResEvent) : Bool :=
  (List.range t.length).all fun i =>
    t[i]? != some .lockRelease || decide (openTxns t i = 0)

/-- C3 is false of the code: on the new-directory-row path of
`PackageInstaller::new`, the catalog transaction is opened *before* the
exclusive lock is acquired, and it is held across the blocking
`lock_exclusive` call. -/
theorem c3_counterexample :
    txnHeldAtLockAcquire (packageInstallerNewTrace false) = true ∧
    (packageInstallerNewTrace false).indexOf .txnBegin <
      (packageInstallerNewTrace false).indexOf .lockAcquire := by
  decide

/-- C3 amended: on every path the transaction is committed before the
exclusive lock is released, and in the `install` / `finish` path the lock is
acquired before the transaction opens, with no transaction held across the
acquisition; but in `PackageInstaller::new`'s new-row path the transaction
is opened before the lock is acquired and is held across that blocking
acquisition. -/
theorem c3_lock_transaction_order :
    (∀ matchFound : Bool,
      commitBeforeRelease (packageInstallerNewTrace matchFound) = true) ∧
    commitBeforeRelease installFinishTrace = true ∧
    txnHeldAtLockAcquire installFinishTrace = false ∧
    txnHeldAtLockAcquire (packageInstallerNewTrace false) = true := by
  refine ⟨?_, by decide, by decide, by decide⟩
  intro matchFound
  cases matchFound <;> decide

/-- `c3_lock_transaction_order` on the new-row trace. -/
theorem c3_lock_transaction_order_witness :
    commitBeforeRelease (packageInstallerNewTrace false) = true :=
  c3_lock_transaction_order.1 false

/-! ## Stage catalog effects (Matcher → Resolver → Fetcher → Installer) -/

/-- `DirectoryRow::all_matches_for_version_impl`: `SELECT ... FROM
packages.directories WHERE namespace = :namespace AND name == :name AND
version == :version`. -/
def all_matches_for_version (nspace name version : String) (c : Catalog) :
    List DirectoryRow :=
  c.directories.filter fun d =>
    d.nspace == nspace && d.name == name && d.version == version

/-- `PackageMatcher::best_match_for_version` composed with the cargo
backend's `best_match` (`rows.into_iter().next()`): the first matching
row. -/
def best_match_for_version (nspace name version : String) (c : Catalog) :
    Option DirectoryRow :=
  (all_matches_for_version nspace name version c).head?

/-- The catalog effect of the Matcher stage: all of `PackageMatcher`'s
database statements (`all_matches_for`, `all_matches_for_version`,
`InstalledRow::all_matches_for`) are SELECTs, so the stage writes nothing. -/
def matcherCatalogEffect (c : Catalog) : Catalog := c

/-- The catalog effect of the Resolver transition
(`PackageResolver::make_fetcher`): the resolver performs no catalog access
at all. -/
def resolverCatalogEffect (c : Catalog) : Catalog := c

/-- The catalog effect of the Installer's pre-commit work
(`InstallGuard::install`: the subprocess build plus the renames into
`install-new/`): no catalog access. -/
def installPreCommitCatalogEffect (c : Catalog) : Catalog := c

/-- The catalog effect of `PackageFetcher::fetch`, whose final step is
`PackageInstaller::new`: if `best_match_for_version` finds a row, nothing is
written; otherwise `ExclusiveRoot::insert_new` inserts the Directory row
(under the exclusive install-path lock) and the transaction commits. -/
def fetchTransitionCatalogEffect (directory_id : Nat) (nspace name : String)
    (hash : Nat) (version metadata : String) (c : Catalog) : Catalog :=
  if (best_match_for_version nspace name version c).isSome then c
  else insert_new directory_id nspace name hash version metadata c

/-- C4 is false of the code: starting from an empty catalog, the transition
out of the Fetcher (`PackageFetcher::fetch` ending in
`PackageInstaller::new`) inserts the Directory row, while the Matcher stage
leaves the catalog unchanged — so the Matcher is not the stage that creates
the row, and the fetch transition does mutate the catalog. -/
theorem c4_counterexample :
    matcherCatalogEffect Catalog.empty = Catalog.empty ∧
    fetchTransitionCatalogEffect 1 "cargo" "ripgrep" 7 "sem:13.0.0" "dm"
      Catalog.empty ≠ Catalog.empty := by
  decide

/-- C4 amended: the Directory row is created during the construction of the
Installer stage (`PackageInstaller::new`, invoked at the end of
`PackageFetcher::fetch`), under the exclusive install-path lock, and only
when no row matching the resolved version exists; the Matcher and Resolver
stages and the Installer's pre-commit work leave the catalog unchanged. -/
theorem c4_directory_row_creation :
    (∀ c, matcherCatalogEffect c = c) ∧
    (∀ c, resolverCatalogEffect c = c) ∧
    (∀ c, installPreCommitCatalogEffect c = c) ∧
    (∀ (did : Nat) (ns nm : String) (hs : Nat) (v m : String) (c : Catalog),
      ((best_match_for_version ns nm v c).isSome = true →
        fetchTransitionCatalogEffect did ns nm hs v m c = c) ∧
      ((best_match_for_version ns nm v c) = none →
        (fetchTransitionCatalogEffect did ns nm hs v m c).directories =
          c.directories ++ [⟨did, ns, nm, hs, v, m, false⟩] ∧
        (fetchTransitionCatalogEffect did ns nm hs v m c).installed =
          c.installed ∧
        (fetchTransitionCatalogEffect did ns nm hs v m c).installed_files =
          c.installed_files)) ∧
    (packageInstallerNewTrace false).indexOf ResEvent.lockAcquire <
      (packageInstallerNewTrace false).indexOf ResEvent.insertDirectoryRow ∧
    (packageInstallerNewTrace false).indexOf ResEvent.insertDirectoryRow <
      (packageInstallerNewTrace false).indexOf ResEvent.lockRelease := by
  refine ⟨fun c => rfl, fun c => rfl, fun c => rfl, ?_, by decide, by decide⟩
  intro did ns nm hs v m c
  constructor
  · intro hsome
    simp [fetchTransitionCatalogEffect, hsome]
  · intro hnone
    simp only [fetchTransitionCatalogEffect, hnone, Option.isSome_none,
      Bool.false_eq_true, if_false]
    exact ⟨rfl, rfl, rfl⟩

/-- `c4_directory_row_creation` applied to an empty catalog: the fetch
transition appends the new row with `installed = false`. -/
theorem c4_directory_row_creation_witness :
    best_match_for_version "cargo" "ripgrep" "sem:13.0.0" Catalog.empty = none ∧
    (fetchTransitionCatalogEffect 1 "cargo" "ripgrep" 7 "sem:13.0.0" "dm"
        Catalog.empty).directories =
      Catalog.empty.directories ++ [⟨1, "cargo", "ripgrep", 7, "sem:13.0.0", "dm", false⟩] :=
  ⟨rfl,
    ((c4_directory_row_creation.2.2.2.1 1 "cargo" "ripgrep" 7 "sem:13.0.0" "dm"
      Catalog.empty).2 rfl).1⟩

/-! ## E3: build failure on a previously unknown package
(`HaspHome::make_install_path` in `hasp/src/home.rs`, `PackageInstaller::new`
and `install` in `installer.rs`) -/

/-- The filesystem, as the set of directories that exist. -/
structure FsState where
  dirs : List String
deriving DecidableEq, Repr

/-- `HaspHome::make_install_path`: builds
`<installs_dir>/<namespace>/<name>/<hash-hex>` and runs
`fs::create_dir_all(&install_path)` — the install path is created on disk as
a side effect of computing it. -/
def make_install_path (installs_dir nspace name : String) (hash : Nat)
    (fs : FsState) : String × FsState :=
  let path := installs_dir ++ "/" ++ nspace ++ "/" ++ name ++ "/" ++ DirectoryHash.fmt hash
  (path, ⟨fs.dirs ++ [path]⟩)

/-- The E3 run on an empty home and catalog: `PackageInstaller::new` for a
package with no catalog row (`make_install_path` creates the install
directory, the exclusive lock is taken, `insert_new` adds the row with
`installed = false`), then `PackageInstaller::install force` where the
external build tool fails.  Rollback (`InstallGuard::rollback`) writes no
catalog row and removes no directory; only the temporary staging area under
`cache/` (not part of this state) is dropped.  Returns the install result,
the catalog, the filesystem, and the guard's journal. -/
def runInstallNewPackageBuildFail (installs_dir nspace name : String)
    (directory_id hash : Nat) (version metadata buildErr : String)
    (force : Bool) :
    Except String InstallOutcome × Catalog × FsState × List JournalEvent :=
  let mk := make_install_path installs_dir nspace name hash ⟨[]⟩
  let c1 := insert_new directory_id nspace name hash version metadata Catalog.empty
  let installed := (get_installed directory_id c1).getD false
  let r := packageInstallerInstall force installed false true true buildErr "" ""
  (r.1, c1, mk.2, r.2)

/-- C6 is false of the code: in the E3 run every expectation of the claim
holds except the last — the status is `Failure`, the Directory row exists
with `installed = false`, `install_failed` with reason `ProcessFailed` is
emitted, but the install path *exists* on disk afterwards (eagerly created
by `make_install_path`, and rollback does not remove it). -/
theorem c6_counterexample :
    (runInstallNewPackageBuildFail "installs" "cargo" "broken" 1 7 "sem:1.0.0"
        "dm" "exit code 101" false).1 = .ok (.failure "exit code 101") ∧
    (runInstallNewPackageBuildFail "installs" "cargo" "broken" 1 7 "sem:1.0.0"
        "dm" "exit code 101" false).2.1.directories =
      [⟨1, "cargo", "broken", 7, "sem:1.0.0", "dm", false⟩] ∧
    (runInstallNewPackageBuildFail "installs" "cargo" "broken" 1 7 "sem:1.0.0"
        "dm" "exit code 101" false).2.2.2 =
      [.installStarted true, .installFailed (.processFailed "exit code 101")] ∧
    "installs/cargo/broken/0000000000000007" ∈
      (runInstallNewPackageBuildFail "installs" "cargo" "broken" 1 7 "sem:1.0.0"
        "dm" "exit code 101" false).2.2.1.dirs := by
  exact ⟨rfl, rfl, rfl, by decide⟩

/-- C6 amended: when the build tool fails on a previously unknown package,
the install returns status `Failure`, the Directory row exists with
`installed = false`, an `install_failed` event with reason `ProcessFailed`
is emitted — and the install path exists on disk afterwards, because
`make_install_path` created it eagerly and rollback does not remove it. -/
theorem c6_build_failure (installs_dir ns nm : String) (did hsh : Nat)
    (v m be : String) (force : Bool) :
    (runInstallNewPackageBuildFail installs_dir ns nm did hsh v m be force).1 =
      .ok (.failure be) ∧
    (runInstallNewPackageBuildFail installs_dir ns nm did hsh v m be
        force).2.1.directories = [⟨did, ns, nm, hsh, v, m, false⟩] ∧
    (runInstallNewPackageBuildFail installs_dir ns nm did hsh v m be
        force).2.2.2 =
      [.installStarted true, .installFailed (.processFailed be)] ∧
    (installs_dir ++ "/" ++ ns ++ "/" ++ nm ++ "/" ++ DirectoryHash.fmt hsh) ∈
      (runInstallNewPackageBuildFail installs_dir ns nm did hsh v m be
        force).2.2.1.dirs := by
  have hinst : (get_installed did
      (insert_new did ns nm hsh v m Catalog.empty)).getD false = false := by
    simp [get_installed, insert_new, Catalog.empty]
  unfold runInstallNewPackageBuildFail
  dsimp only
  rw [hinst]
  simp [packageInstallerInstall, make_install_path, installGuardNew,
    rollback, insert_new, Catalog.empty]

end Hasp
